import Mathlib

/-!
# Shallow embedding of the WyvernCore layered key-value storage core

This file embeds the storage abstraction of the repository (the
`CacheStorage`, `FileStorage` and `DualStorage` classes together with the
derived batch-operation layer of `SyncStorage` / `AsyncStorage`) and settles
the frozen claims about it.

Modelling conventions:

* JS values stored in the system are modelled by the scalar JSON fragment
  `Value` (null, booleans, integers, strings).  `undefined` is modelled as
  `Option.none`; `null` is the distinct value `Value.vnull`, matching the
  JS distinction the code relies on (`===  undefined` vs the `??` operator).
* The JS `Map` backing the cache is an association list in insertion order;
  `Map.set` replaces in place or appends, `Map.delete` removes the entry and
  reports whether it existed.
* The file system is a map from path to raw string content (files only).
  `FS.readFile`/`FS.writeFile`/`FS.rm` succeed according to presence of the
  path; other I/O faults are outside the model.  `FS.readdir` of a directory
  yields its immediate children in file-list order.
* `JSON.stringify(x, null, "\t")` and `JSON.parse` are modelled by an
  executable codec on `Value`.  For scalars the indentation argument is
  irrelevant (it only affects composite values).  `JSON.stringify` escapes
  `"`, `\`, and the common control characters by name; the model passes
  other characters through raw (real JS uses `\u` escapes there, which
  round-trip as well, so the truth of the round-trip claims is unaffected).
  `JSON.parse` throwing on malformed content is modelled as `none`.
-/

/-- Scalar JSON-representable JS value.  The repository is generic over the
stored value type; the claims are settled at this instantiation. -/
inductive Value where
  | vnull : Value
  | vbool : Bool → Value
  | vnum : Int → Value
  | vstr : String → Value
deriving DecidableEq, Repr

/-- JS truthiness of a value (`!!v`): `null`, `false`, `0` and `""` are falsy. -/
def jsTruthy : Value → Bool
  | .vnull => false
  | .vbool b => b
  | .vnum n => n != 0
  | .vstr s => s != ""

/-- Decimal digit character for `n < 10` (used by number printing). -/
def digitChar : Nat → Char
  | 0 => '0' | 1 => '1' | 2 => '2' | 3 => '3' | 4 => '4'
  | 5 => '5' | 6 => '6' | 7 => '7' | 8 => '8' | _ => '9'

/-- Decimal digits of a natural number, most significant first, with enough
fuel (`n < fuel` makes the fuel inexhaustible). -/
def natCharsFuel : Nat → Nat → List Char
  | 0, _ => []
  | fuel + 1, n =>
    if n < 10 then [digitChar n]
    else natCharsFuel fuel (n / 10) ++ [digitChar (n % 10)]

/-- Decimal digits of a natural number, most significant first. -/
def natChars (n : Nat) : List Char := natCharsFuel (n + 1) n

/-- Decimal rendering of an integer, as JS `Number#toString` renders an
integer-valued number. -/
def intChars (n : Int) : List Char :=
  if n < 0 then '-' :: natChars n.natAbs else natChars n.toNat

/-- JS string conversion `${data}` of a stored value. -/
def jsToString : Value → String
  | .vnull => "null"
  | .vbool true => "true"
  | .vbool false => "false"
  | .vnum n => String.mk (intChars n)
  | .vstr s => s

/-- JSON string escaping of one character (the named escapes emitted by
`JSON.stringify`; other characters pass through raw). -/
def escChar (c : Char) : List Char :=
  if c = '"' then ['\\', '"']
  else if c = '\\' then ['\\', '\\']
  else if c = '\n' then ['\\', 'n']
  else if c = '\t' then ['\\', 't']
  else if c = '\r' then ['\\', 'r']
  else [c]

/-- JSON string escaping of a character list. -/
def escChars : List Char → List Char
  | [] => []
  | c :: cs => escChar c ++ escChars cs

/-- Characters of the JSON serialization of a scalar value, as produced by
`JSON.stringify(data, null, "\t")` (indentation affects only composites). -/
def encodeChars : Value → List Char
  | .vnull => ['n', 'u', 'l', 'l']
  | .vbool true => ['t', 'r', 'u', 'e']
  | .vbool false => ['f', 'a', 'l', 's', 'e']
  | .vnum n => intChars n
  | .vstr s => '"' :: (escChars s.data ++ ['"'])

/-- Model of `JSON.stringify(data, null, "\t")` on scalar values. -/
def jsonStringify (v : Value) : String := String.mk (encodeChars v)

/-- Decidable decimal-digit test on characters (code points 48–57). -/
def isDigitCh (c : Char) : Bool := decide (48 ≤ c.toNat) && decide (c.toNat ≤ 57)

/-- Numeric value of a digit character. -/
def digitVal (c : Char) : Nat := c.toNat - 48

/-- Consume a run of digit characters, accumulating their value. -/
def parseDigits : List Char → Nat → Nat × List Char
  | [], acc => (acc, [])
  | c :: cs, acc => if isDigitCh c then parseDigits cs (acc * 10 + digitVal c) else (acc, c :: cs)

/-- Parse a nonempty digit run into a natural number. -/
def parseNat : List Char → Option (Nat × List Char)
  | [] => none
  | c :: cs => if isDigitCh c then some (parseDigits (c :: cs) 0) else none

/-- JSON whitespace test. -/
def isWs (c : Char) : Bool := c = ' ' || c = '\n' || c = '\t' || c = '\r'

/-- Drop leading JSON whitespace. -/
def skipWs : List Char → List Char
  | [] => []
  | c :: cs => if isWs c then skipWs cs else c :: cs

/-- Expect a literal token; return the remaining input on success. -/
def dropToken : List Char → List Char → Option (List Char)
  | [], l => some l
  | t :: ts, c :: cs => if c = t then dropToken ts cs else none
  | _ :: _, [] => none

/-- Parse the body of a JSON string after the opening quote, undoing the
named escapes; `acc` holds the characters read so far, reversed. -/
def parseStringBody : List Char → List Char → Option (String × List Char)
  | [], _ => none
  | c :: cs, acc =>
    if c = '"' then some (String.mk acc.reverse, cs)
    else if c = '\\' then
      match cs with
      | [] => none
      | e :: rest =>
        if e = '"' then parseStringBody rest ('"' :: acc)
        else if e = '\\' then parseStringBody rest ('\\' :: acc)
        else if e = 'n' then parseStringBody rest ('\n' :: acc)
        else if e = 't' then parseStringBody rest ('\t' :: acc)
        else if e = 'r' then parseStringBody rest ('\r' :: acc)
        else none
    else parseStringBody cs (c :: acc)

/-- Parse one scalar JSON value from the input. -/
def parseValue (l : List Char) : Option (Value × List Char) :=
  match l with
  | [] => none
  | c :: cs =>
    if c = 'n' then (dropToken ['u', 'l', 'l'] cs).map (fun r => (.vnull, r))
    else if c = 't' then (dropToken ['r', 'u', 'e'] cs).map (fun r => (.vbool true, r))
    else if c = 'f' then (dropToken ['a', 'l', 's', 'e'] cs).map (fun r => (.vbool false, r))
    else if c = '"' then (parseStringBody cs []).map (fun p => (.vstr p.1, p.2))
    else if c = '-' then (parseNat cs).map (fun p => (.vnum (-(p.1 : Int)), p.2))
    else (parseNat (c :: cs)).map (fun p => (.vnum (p.1 : Int), p.2))

/-- Model of `JSON.parse` on the scalar JSON fragment: one value surrounded
by optional whitespace; anything else is a parse failure (`none`). -/
def jsonParse (s : String) : Option Value :=
  match parseValue (skipWs s.data) with
  | some (v, rest) => if skipWs rest = [] then some v else none
  | none => none

/-! ## Association-list model of JS `Map` and of the file system -/

/-- Model of `Map.has` / path existence: is `k` a key of the list. -/
def listHas (k : String) (l : List (String × α)) : Bool := l.any (fun p => p.1 == k)

/-- Model of `Map.get` / file lookup: value at `k`, or `none` (JS `undefined`). -/
def listGet (k : String) (l : List (String × α)) : Option α :=
  (l.find? (fun p => p.1 == k)).map (fun p => p.2)

/-- Model of `Map.set` / file write: replace the entry in place if present
(keeping insertion order), otherwise append. -/
def listSet (k : String) (v : α) : List (String × α) → List (String × α)
  | [] => [(k, v)]
  | (k', v') :: rest => if k' == k then (k', v) :: rest else (k', v') :: listSet k v rest

/-- Model of `Map.delete` / `FS.rm`: remove the entry at `k`, reporting whether it
existed (for `FS.rm`, removal of an absent path throws, i.e. fails). -/
def listDel (k : String) : List (String × α) → Bool × List (String × α)
  | [] => (false, [])
  | (k', v') :: rest =>
    if k' == k then (true, rest)
    else
      let r := listDel k rest
      (r.1, (k', v') :: r.2)

/-- Cache state: the JS `Map<string, unknown>` behind `CacheStorage`. -/
abbrev CacheState := List (String × Value)

/-- File-system state: path to raw file content, in listing order. -/
abbrev FsState := List (String × String)

/-! ## Request settings and the key/path normalizer -/

/-- Storage request settings object (`RequestSettings`), with the defaults
of `DEFAULT_REQUEST_SETTINGS` baked in as field defaults. -/
structure RequestSettings where
  deny_read : Bool := false
  deny_write : Bool := false
  data_type : String := "json"
  ignore_cache : Bool := false
  ignore_files : Bool := false
deriving DecidableEq, Repr

/-- Default storage request settings. -/
def DEFAULT_REQUEST_SETTINGS : RequestSettings := {}

/-- Default data storage location. -/
def DEFAULT_DATA_ROOT : String := "data"

/-- Model of `raw.replace(/\\/g, "/")`: replace every backslash character by a slash. -/
def replaceBackslashes (s : String) : String :=
  String.mk (s.data.map (fun c => if c = '\\' then '/' else c))

/-- Model of `String#startsWith` (modelled on the character list). -/
def strStarts (s pre : String) : Bool := pre.data.isPrefixOf s.data

/-- Model of `String#endsWith` (modelled on the character list). -/
def strEnds (s suf : String) : Bool := suf.data.isSuffixOf s.data

/-- Model of `raw.slice(1)`: drop the first character. -/
def strTail (s : String) : String := String.mk (s.data.drop 1)

/-- Model of `__into_dir_path`: replace backslashes, strip one leading slash, ensure a
trailing slash, and prefix the root directory. -/
def intoDirPath (raw : String) (root : String := DEFAULT_DATA_ROOT) : String :=
  let r1 := replaceBackslashes raw
  let r2 := if strStarts r1 "/" then strTail r1 else r1
  let r3 := if strEnds r2 "/" then r2 else r2 ++ "/"
  root ++ "/" ++ r3

/-- Model of `__into_file_path`: replace backslashes, strip one leading slash, append
the extension if not already present, and prefix the root directory. -/
def intoFilePath (raw : String) (ext : String := "json")
    (root : String := DEFAULT_DATA_ROOT) : String :=
  let r1 := replaceBackslashes raw
  let r2 := if strStarts r1 "/" then strTail r1 else r1
  let r3 := if strEnds r2 ("." ++ ext) then r2 else r2 ++ "." ++ ext
  root ++ "/" ++ r3

/-! ## `CacheStorage` (the In-Memory Store) -/

/-- Model of `CacheStorage.pairs`: entries whose key starts with `dir`, unless the
cache is ignored or reads are denied. -/
def CacheStorage.pairs (dir : String) (s : RequestSettings) (st : CacheState) :
    List (String × Value) :=
  if s.ignore_cache || s.deny_read then [] else st.filter (fun p => strStarts p.1 dir)

/-- Model of `CacheStorage.has`: map membership; guarded only by `ignore_cache`
(the source does not consult `deny_read` here). -/
def CacheStorage.has (k : String) (s : RequestSettings) (st : CacheState) : Bool :=
  if s.ignore_cache then false else listHas k st

/-- Model of `CacheStorage.get`: map lookup, `undefined` when ignored or denied. -/
def CacheStorage.get (k : String) (s : RequestSettings) (st : CacheState) : Option Value :=
  if s.ignore_cache || s.deny_read then none else listGet k st

/-- Model of `CacheStorage.set`: store and report `map.set(key, data).get(key) === data`;
`false` when ignored or writes denied. -/
def CacheStorage.set (k : String) (v : Value) (s : RequestSettings) (st : CacheState) :
    Bool × CacheState :=
  if s.ignore_cache || s.deny_write then (false, st)
  else
    let st' := listSet k v st
    (listGet k st' == some v, st')

/-- Model of `CacheStorage.del`: `map.delete(key)` (reports whether the key existed);
`false` when ignored or writes denied. -/
def CacheStorage.del (k : String) (s : RequestSettings) (st : CacheState) :
    Bool × CacheState :=
  if s.ignore_cache || s.deny_write then (false, st) else listDel k st

/-! ## `FileStorage` (the File-System Store) -/

/-- Model of `FileStorage.has`: `FS.readFile` on the resolved path succeeds. -/
def FileStorage.has (k : String) (s : RequestSettings) (fs : FsState) : Bool :=
  if s.ignore_files || s.deny_read then false
  else (listGet (intoFilePath k s.data_type) fs).isSome

/-- Model of `FileStorage.get`: read the resolved path; `JSON.parse` the content when
`data_type` is `"json"`, otherwise return it as raw text. -/
def FileStorage.get (k : String) (s : RequestSettings) (fs : FsState) : Option Value :=
  if s.ignore_files || s.deny_read then none
  else
    match listGet (intoFilePath k s.data_type) fs with
    | none => none
    | some content =>
      if s.data_type == "json" then jsonParse content else some (.vstr content)

/-- Model of `FileStorage.set`: serialize (`JSON.stringify(data, null, "\t")` for json,
`${data}` otherwise), make parent directories, and write the file. -/
def FileStorage.set (k : String) (v : Value) (s : RequestSettings) (fs : FsState) :
    Bool × FsState :=
  if s.ignore_files || s.deny_write then (false, fs)
  else
    let raw := if s.data_type == "json" then jsonStringify v else jsToString v
    (true, listSet (intoFilePath k s.data_type) raw fs)

/-- Model of `FileStorage.del`: `FS.rm` the resolved path (fails when absent). -/
def FileStorage.del (k : String) (s : RequestSettings) (fs : FsState) :
    Bool × FsState :=
  if s.ignore_files || s.deny_write then (false, fs)
  else listDel (intoFilePath k s.data_type) fs

/-- A path is an immediate child file of directory `path`: it extends `path`
by a nonempty name containing no slash (`readdir` entries with `isFile`;
subdirectories are skipped, not recursed). -/
def isChildFile (path p : String) : Bool :=
  let rem := p.data.drop path.data.length
  strStarts p path && !rem.isEmpty && !rem.contains '/'

/-- Model of `FileStorage.pairs`: list the resolved directory; for each plain file the
key is `path ++ name` and the value is loaded via `FileStorage.get` on that
key (which re-resolves the path). -/
def FileStorage.pairs (dir : String) (s : RequestSettings) (fs : FsState) :
    List (String × Option Value) :=
  if s.ignore_files || s.deny_read then []
  else
    let path := intoDirPath dir
    (fs.filter (fun pr => isChildFile path pr.1)).map
      (fun pr => (pr.1, FileStorage.get pr.1 s fs))

/-! ## `DualStorage` -/

/-- Dual-store state: a privately owned cache paired with the file system. -/
abbrev DualState := CacheState × FsState

/-- Model of `DualStorage.pairs`: `[...new Set([...cache, ...files])]`.  Each pair is a
freshly created array, so the JS `Set` (which compares by reference) removes
nothing: the result is the concatenation of the two layers' entries. -/
def DualStorage.pairs (dir : String) (s : RequestSettings) (st : DualState) :
    List (String × Option Value) :=
  (CacheStorage.pairs dir s st.1).map (fun p => (p.1, some p.2))
    ++ FileStorage.pairs dir s st.2

/-- Model of `DualStorage.has`: cache membership or file existence. -/
def DualStorage.has (k : String) (s : RequestSettings) (st : DualState) : Bool :=
  CacheStorage.has k s st.1 || FileStorage.has k s st.2

/-- Model of `DualStorage.get`: read the cache; on `undefined` read the files; promote
a file-read value into the cache; return `cache ?? files` (note `??` also
treats a cached `null` as nullish). -/
def DualStorage.get (k : String) (s : RequestSettings) (st : DualState) :
    Option Value × DualState :=
  let cache := CacheStorage.get k s st.1
  let files := match cache with
    | none => FileStorage.get k s st.2
    | some _ => none
  let cache' := match cache, files with
    | none, some v => (CacheStorage.set k v s st.1).2
    | _, _ => st.1
  let ret := match cache with
    | none => files
    | some .vnull => files
    | some v => some v
  (ret, (cache', st.2))

/-- Model of `DualStorage.set`: write to both layers; each layer's outcome is its set
result OR'd with the matching `ignore_*` flag; overall result is their AND. -/
def DualStorage.set (k : String) (v : Value) (s : RequestSettings) (st : DualState) :
    Bool × DualState :=
  let c := CacheStorage.set k v s st.1
  let f := FileStorage.set k v s st.2
  ((c.1 || s.ignore_cache) && (f.1 || s.ignore_files), (c.2, f.2))

/-- Model of `DualStorage.del`: symmetric to `set` over both layers. -/
def DualStorage.del (k : String) (s : RequestSettings) (st : DualState) :
    Bool × DualState :=
  let c := CacheStorage.del k s st.1
  let f := FileStorage.del k s st.2
  ((c.1 || s.ignore_cache) && (f.1 || s.ignore_files), (c.2, f.2))

/-! ## Derived batch operations

`SyncStorage` derives its batch operations from the primitives of its only
concrete subclass, `CacheStorage`.  `AsyncStorage` derives them from the
abstract primitives, instantiated by `FileStorage` and `DualStorage`; the
instantiation is captured by the `Prims` record.  User callbacks receive the
invoking storage, so they are modelled as state transformers; the value they
receive is the raw `get` result (`Option Value`, since the source's `!`
assertion does not change the runtime value). -/

/-- A data modifier callback over storage state `σ`. -/
abbrev Modifier (σ : Type) := Option Value → String → σ → Value × σ

/-- A data predicate callback over storage state `σ`. -/
abbrev Predicate (σ : Type) := Option Value → String → σ → Bool × σ

/-- Model of `SyncStorage.has_all`: `keys.every((key) => this.has(key, settings))`. -/
def SyncStorage.has_all (keys : List String) (s : RequestSettings) (st : CacheState) : Bool :=
  keys.all (fun k => CacheStorage.has k s st)

/-- Model of `SyncStorage.has_any`: `keys.some((key) => this.has(key, settings))`. -/
def SyncStorage.has_any (keys : List String) (s : RequestSettings) (st : CacheState) : Bool :=
  keys.any (fun k => CacheStorage.has k s st)

/-- Keep the payloads of the truthy lookup results (`.filter((v) => !!v)`
followed by `.map((v) => v!)`). -/
def keepTruthy : List (Option Value) → List Value
  | [] => []
  | none :: rest => keepTruthy rest
  | some v :: rest => if jsTruthy v then v :: keepTruthy rest else keepTruthy rest

/-- Model of `SyncStorage.get_all`: map `get` over the keys, keep the truthy results. -/
def SyncStorage.get_all (keys : List String) (s : RequestSettings) (st : CacheState) :
    List Value :=
  keepTruthy (keys.map (fun k => CacheStorage.get k s st))

/-- Model of `SyncStorage.set_all`: `pairs.every(([key, val]) => this.set(key, val, settings))`
(`every` stops at the first `false`, leaving later writes unattempted). -/
def SyncStorage.set_all : List (String × Value) → RequestSettings → CacheState →
    Bool × CacheState
  | [], _, st => (true, st)
  | (k, v) :: rest, s, st =>
    let r := CacheStorage.set k v s st
    if r.1 then SyncStorage.set_all rest s r.2 else (false, r.2)

/-- Model of `SyncStorage.del_all`: `keys.every((key) => this.del(key, settings))`. -/
def SyncStorage.del_all : List String → RequestSettings → CacheState → Bool × CacheState
  | [], _, st => (true, st)
  | k :: rest, s, st =>
    let r := CacheStorage.del k s st
    if r.1 then SyncStorage.del_all rest s r.2 else (false, r.2)

/-- Model of `SyncStorage.assert`: `this.has(key, settings) && callback(this.get(key, settings)!, key, this)`. -/
def SyncStorage.assert (k : String) (cb : Predicate CacheState) (s : RequestSettings)
    (st : CacheState) : Bool × CacheState :=
  if CacheStorage.has k s st then cb (CacheStorage.get k s st) k st else (false, st)

/-- Model of `SyncStorage.assert_all`: `result &&= await this.assert(...)` over the keys
(`&&=` stops evaluating once the accumulator is `false`). -/
def SyncStorage.assert_all : List String → Predicate CacheState → RequestSettings →
    CacheState → Bool × CacheState
  | [], _, _, st => (true, st)
  | k :: rest, cb, s, st =>
    let r := SyncStorage.assert k cb s st
    if r.1 then SyncStorage.assert_all rest cb s r.2 else (false, r.2)

/-- Model of `SyncStorage.assert_any`: `result ||= await this.assert(...)` over the keys
(`||=` stops evaluating once the accumulator is `true`). -/
def SyncStorage.assert_any : List String → Predicate CacheState → RequestSettings →
    CacheState → Bool × CacheState
  | [], _, _, st => (false, st)
  | k :: rest, cb, s, st =>
    let r := SyncStorage.assert k cb s st
    if r.1 then (true, r.2) else SyncStorage.assert_any rest cb s r.2

/-- Model of `SyncStorage.modify`: `this.has(key, settings) && this.set(key, await callback(this.get(key, settings)!, key, this))`.
Note the source passes no settings to the inner `set`, which therefore runs
with `DEFAULT_REQUEST_SETTINGS`. -/
def SyncStorage.modify (k : String) (cb : Modifier CacheState) (s : RequestSettings)
    (st : CacheState) : Bool × CacheState :=
  if CacheStorage.has k s st then
    let r := cb (CacheStorage.get k s st) k st
    CacheStorage.set k r.1 DEFAULT_REQUEST_SETTINGS r.2
  else (false, st)

/-- Model of `SyncStorage.modify_all`: `result &&= await this.modify(...)` over the keys. -/
def SyncStorage.modify_all : List String → Modifier CacheState → RequestSettings →
    CacheState → Bool × CacheState
  | [], _, _, st => (true, st)
  | k :: rest, cb, s, st =>
    let r := SyncStorage.modify k cb s st
    if r.1 then SyncStorage.modify_all rest cb s r.2 else (false, r.2)

/-- The five primitive operations an `AsyncStorage` subclass supplies (`has`
is pure in both subclasses; `get` may mutate state — `DualStorage` promotes). -/
structure Prims (σ : Type) where
  has : String → RequestSettings → σ → Bool
  get : String → RequestSettings → σ → Option Value × σ
  set : String → Value → RequestSettings → σ → Bool × σ
  del : String → RequestSettings → σ → Bool × σ

/-- Model of `FileStorage` as an `AsyncStorage` (reads do not mutate the disk). -/
def filePrims : Prims FsState where
  has := FileStorage.has
  get := fun k s fs => (FileStorage.get k s fs, fs)
  set := FileStorage.set
  del := FileStorage.del

/-- Model of `DualStorage` as an `AsyncStorage`. -/
def dualPrims : Prims DualState where
  has := DualStorage.has
  get := DualStorage.get
  set := DualStorage.set
  del := DualStorage.del

/-- Model of `AsyncStorage.has_all`: `result &&= await this.has(key, settings)`. -/
def AsyncStorage.has_all (P : Prims σ) (keys : List String) (s : RequestSettings)
    (st : σ) : Bool :=
  keys.all (fun k => P.has k s st)

/-- Model of `AsyncStorage.has_any`: `result ||= await this.has(key, settings)`. -/
def AsyncStorage.has_any (P : Prims σ) (keys : List String) (s : RequestSettings)
    (st : σ) : Bool :=
  keys.any (fun k => P.has k s st)

/-- Model of `AsyncStorage.get_all`: loop over the keys, pushing each truthy result. -/
def AsyncStorage.get_all (P : Prims σ) : List String → RequestSettings → σ →
    List Value × σ
  | [], _, st => ([], st)
  | k :: rest, s, st =>
    let r := P.get k s st
    let tail := AsyncStorage.get_all P rest s r.2
    (match r.1 with
     | some v => if jsTruthy v then v :: tail.1 else tail.1
     | none => tail.1, tail.2)

/-- Model of `AsyncStorage.set_all`: `result &&= await this.set(key, val, settings)`. -/
def AsyncStorage.set_all (P : Prims σ) : List (String × Value) → RequestSettings → σ →
    Bool × σ
  | [], _, st => (true, st)
  | (k, v) :: rest, s, st =>
    let r := P.set k v s st
    if r.1 then AsyncStorage.set_all P rest s r.2 else (false, r.2)

/-- Model of `AsyncStorage.del_all`: `result &&= await this.del(key, settings)`. -/
def AsyncStorage.del_all (P : Prims σ) : List String → RequestSettings → σ → Bool × σ
  | [], _, st => (true, st)
  | k :: rest, s, st =>
    let r := P.del k s st
    if r.1 then AsyncStorage.del_all P rest s r.2 else (false, r.2)

/-- Model of `AsyncStorage.assert`: `(await this.has(...)) && (await callback((await this.get(...))!, key, this))`. -/
def AsyncStorage.assert (P : Prims σ) (k : String) (cb : Predicate σ)
    (s : RequestSettings) (st : σ) : Bool × σ :=
  if P.has k s st then
    let r := P.get k s st
    cb r.1 k r.2
  else (false, st)

/-- Model of `AsyncStorage.assert_all`: `result &&= await this.assert(...)`. -/
def AsyncStorage.assert_all (P : Prims σ) : List String → Predicate σ →
    RequestSettings → σ → Bool × σ
  | [], _, _, st => (true, st)
  | k :: rest, cb, s, st =>
    let r := AsyncStorage.assert P k cb s st
    if r.1 then AsyncStorage.assert_all P rest cb s r.2 else (false, r.2)

/-- Model of `AsyncStorage.assert_any`: `result ||= await this.assert(...)`. -/
def AsyncStorage.assert_any (P : Prims σ) : List String → Predicate σ →
    RequestSettings → σ → Bool × σ
  | [], _, _, st => (false, st)
  | k :: rest, cb, s, st =>
    let r := AsyncStorage.assert P k cb s st
    if r.1 then (true, r.2) else AsyncStorage.assert_any P rest cb s r.2

/-- Model of `AsyncStorage.modify`: has, get, callback, then `set` — with the settings
argument omitted in the source, hence `DEFAULT_REQUEST_SETTINGS`. -/
def AsyncStorage.modify (P : Prims σ) (k : String) (cb : Modifier σ)
    (s : RequestSettings) (st : σ) : Bool × σ :=
  if P.has k s st then
    let r := P.get k s st
    let m := cb r.1 k r.2
    P.set k m.1 DEFAULT_REQUEST_SETTINGS m.2
  else (false, st)

/-- Model of `AsyncStorage.modify_all`: `result &&= await this.modify(...)`. -/
def AsyncStorage.modify_all (P : Prims σ) : List String → Modifier σ →
    RequestSettings → σ → Bool × σ
  | [], _, _, st => (true, st)
  | k :: rest, cb, s, st =>
    let r := AsyncStorage.modify P k cb s st
    if r.1 then AsyncStorage.modify_all P rest cb s r.2 else (false, r.2)

/-! ## Codec lemmas: `jsonParse` inverts `jsonStringify` on scalar values -/

/-- Digit characters produced by `digitChar` pass the digit test. -/
lemma digitChar_isDigit (n : Nat) (h : n < 10) : isDigitCh (digitChar n) = true := by
  interval_cases n <;> decide

/-- The numeric value of a produced digit character is the digit. -/
lemma digitVal_digitChar (n : Nat) (h : n < 10) : digitVal (digitChar n) = n := by
  interval_cases n <;> decide

/-- Running the digit consumer through a rendered number accumulates it. -/
lemma parseDigits_natCharsFuel (fuel : Nat) : ∀ n acc rest, n < fuel →
    parseDigits (natCharsFuel fuel n ++ rest) acc
      = parseDigits rest (acc * 10 ^ (natCharsFuel fuel n).length + n) := by
  induction fuel with
  | zero => intro n _ _ h; omega
  | succ f ih =>
    intro n acc rest h
    by_cases h10 : n < 10
    · simp only [natCharsFuel, if_pos h10, List.singleton_append, List.length_singleton,
        parseDigits, digitChar_isDigit n h10, if_true, digitVal_digitChar n h10]
      norm_num
    · have hn : n / 10 < f := by omega
      have hm : n % 10 < 10 := Nat.mod_lt _ (by omega)
      simp only [natCharsFuel, if_neg h10, List.append_assoc]
      rw [ih (n / 10) acc ([digitChar (n % 10)] ++ rest) hn]
      simp only [List.singleton_append, parseDigits, digitChar_isDigit _ hm, if_true,
        digitVal_digitChar _ hm, List.length_append, List.length_singleton]
      congr 1
      have e : ∀ Y : Nat, (Y + n / 10) * 10 + n % 10 = Y * 10 + n := by intro Y; omega
      rw [pow_succ, ← mul_assoc]
      exact e (acc * 10 ^ (natCharsFuel f (n / 10)).length)

/-- A rendered number is nonempty and begins with a digit character. -/
lemma natCharsFuel_head (fuel : Nat) : ∀ n, n < fuel →
    ∃ c t, natCharsFuel fuel n = c :: t ∧ isDigitCh c = true := by
  induction fuel with
  | zero => intro n h; omega
  | succ f ih =>
    intro n h
    by_cases h10 : n < 10
    · exact ⟨digitChar n, [], by simp [natCharsFuel, if_pos h10], digitChar_isDigit n h10⟩
    · obtain ⟨c, t, hct, hd⟩ := ih (n / 10) (by omega)
      exact ⟨c, t ++ [digitChar (n % 10)], by simp [natCharsFuel, if_neg h10, hct], hd⟩

/-- The number parser inverts the number renderer. -/
lemma parseNat_natChars (n : Nat) : parseNat (natChars n) = some (n, []) := by
  obtain ⟨c, t, hct, hd⟩ := natCharsFuel_head (n + 1) n (by omega)
  have hpd := parseDigits_natCharsFuel (n + 1) n 0 [] (by omega)
  rw [List.append_nil] at hpd
  simp only [parseDigits, Nat.zero_mul, Nat.zero_add] at hpd
  unfold natChars
  rw [hct]
  simp only [parseNat, hd, if_true]
  rw [← hct, hpd]

/-- A digit character is not whitespace and differs from every character the
scalar parser dispatches on. -/
lemma isDigitCh_facts (c : Char) (h : isDigitCh c = true) :
    isWs c = false ∧ c ≠ 'n' ∧ c ≠ 't' ∧ c ≠ 'f' ∧ c ≠ '"' ∧ c ≠ '-' := by
  have h' : 48 ≤ c.toNat ∧ c.toNat ≤ 57 := by simpa [isDigitCh] using h
  refine ⟨?_, ?_, ?_, ?_, ?_, ?_⟩
  · simp only [isWs, Bool.or_eq_false_iff, decide_eq_false_iff_not]
    refine ⟨⟨⟨?_, ?_⟩, ?_⟩, ?_⟩ <;> (rintro rfl; exact absurd h' (by decide))
  all_goals (rintro rfl; exact absurd h' (by decide))

/-- One parser step: a closing quote ends the string. -/
lemma psb_quote (rest acc : List Char) :
    parseStringBody ('"' :: rest) acc = some (String.mk acc.reverse, rest) := by
  rw [parseStringBody.eq_def]; simp

/-- One parser step: an escaped quote. -/
lemma psb_esc_quote (rest acc : List Char) :
    parseStringBody ('\\' :: '"' :: rest) acc = parseStringBody rest ('"' :: acc) := by
  rw [parseStringBody.eq_def]; simp

/-- One parser step: an escaped backslash. -/
lemma psb_esc_back (rest acc : List Char) :
    parseStringBody ('\\' :: '\\' :: rest) acc = parseStringBody rest ('\\' :: acc) := by
  rw [parseStringBody.eq_def]; simp

/-- One parser step: an escaped newline. -/
lemma psb_esc_n (rest acc : List Char) :
    parseStringBody ('\\' :: 'n' :: rest) acc = parseStringBody rest ('\n' :: acc) := by
  rw [parseStringBody.eq_def]; simp

/-- One parser step: an escaped tab. -/
lemma psb_esc_t (rest acc : List Char) :
    parseStringBody ('\\' :: 't' :: rest) acc = parseStringBody rest ('\t' :: acc) := by
  rw [parseStringBody.eq_def]; simp

/-- One parser step: an escaped carriage return. -/
lemma psb_esc_r (rest acc : List Char) :
    parseStringBody ('\\' :: 'r' :: rest) acc = parseStringBody rest ('\r' :: acc) := by
  rw [parseStringBody.eq_def]; simp

/-- One parser step: a raw (unescaped) character is consumed as itself. -/
lemma psb_raw (c : Char) (rest acc : List Char) (h1 : c ≠ '"') (h2 : c ≠ '\\') :
    parseStringBody (c :: rest) acc = parseStringBody rest (c :: acc) := by
  rw [parseStringBody.eq_def]
  simp only [if_neg h1, if_neg h2]

/-- The string-body parser inverts the escaper, for any accumulator and any
trailing input after the closing quote. -/
lemma parseStringBody_escChars (l : List Char) : ∀ acc rest,
    parseStringBody (escChars l ++ ('"' :: rest)) acc
      = some (String.mk (acc.reverse ++ l), rest) := by
  induction l with
  | nil =>
    intro acc rest
    simp only [escChars, List.nil_append, psb_quote, List.append_nil]
  | cons c cs ih =>
    intro acc rest
    have step : escChars (c :: cs) ++ ('"' :: rest)
        = escChar c ++ (escChars cs ++ ('"' :: rest)) := by
      simp [escChars, List.append_assoc]
    rw [step]
    by_cases h1 : c = '"'
    · subst h1
      rw [show escChar '"' = ['\\', '"'] from rfl]
      rw [List.cons_append, List.cons_append, List.nil_append, psb_esc_quote, ih]
      simp
    · by_cases h2 : c = '\\'
      · subst h2
        rw [show escChar '\\' = ['\\', '\\'] from rfl]
        rw [List.cons_append, List.cons_append, List.nil_append, psb_esc_back, ih]
        simp
      · by_cases h3 : c = '\n'
        · subst h3
          rw [show escChar '\n' = ['\\', 'n'] from rfl]
          rw [List.cons_append, List.cons_append, List.nil_append, psb_esc_n, ih]
          simp
        · by_cases h4 : c = '\t'
          · subst h4
            rw [show escChar '\t' = ['\\', 't'] from rfl]
            rw [List.cons_append, List.cons_append, List.nil_append, psb_esc_t, ih]
            simp
          · by_cases h5 : c = '\r'
            · subst h5
              rw [show escChar '\r' = ['\\', 'r'] from rfl]
              rw [List.cons_append, List.cons_append, List.nil_append, psb_esc_r, ih]
              simp
            · rw [show escChar c = [c] from by
                simp [escChar, h1, h2, h3, h4, h5]]
              rw [List.cons_append, List.nil_append, psb_raw c _ acc h1 h2, ih]
              simp

/-- Rebuilding a string from its character list is the identity. -/
lemma string_mk_data (s : String) : String.mk s.data = s := by cases s; rfl

/-- Round trip of the JSON codec: parsing a serialized scalar value returns
that value. -/
theorem jsonParse_jsonStringify (v : Value) : jsonParse (jsonStringify v) = some v := by
  cases v with
  | vnull => decide
  | vbool b => cases b <;> decide
  | vnum n =>
    rcases n with m | m
    · show jsonParse (String.mk (intChars (Int.ofNat m))) = some (.vnum (Int.ofNat m))
      have hi : intChars (Int.ofNat m) = natChars m := by
        simp [intChars, Int.toNat_ofNat]
      rw [hi]
      obtain ⟨c, t, hct, hd⟩ := natCharsFuel_head (m + 1) m (by omega)
      have hct' : natChars m = c :: t := hct
      obtain ⟨hws, hn, ht, hf, hq, hm⟩ := isDigitCh_facts c hd
      unfold jsonParse
      show (match parseValue (skipWs (natChars m)) with
        | some (v, rest) => if skipWs rest = [] then some v else none
        | none => none) = _
      rw [hct']
      simp only [skipWs, hws, Bool.false_eq_true, if_false]
      simp only [parseValue, if_neg hn, if_neg ht, if_neg hf, if_neg hq, if_neg hm]
      rw [← hct', parseNat_natChars m]
      simp [skipWs]
    · show jsonParse (String.mk (intChars (Int.negSucc m))) = some (.vnum (Int.negSucc m))
      have hneg : (Int.negSucc m) < 0 := Int.negSucc_lt_zero m
      have hi : intChars (Int.negSucc m) = '-' :: natChars (m + 1) := by
        simp [intChars, hneg, Int.natAbs_negSucc]
      rw [hi]
      unfold jsonParse
      show (match parseValue (skipWs ('-' :: natChars (m + 1))) with
        | some (v, rest) => if skipWs rest = [] then some v else none
        | none => none) = _
      have hws : isWs '-' = false := by decide
      simp only [skipWs, hws, Bool.false_eq_true, if_false]
      simp only [parseValue, reduceIte]
      rw [parseNat_natChars (m + 1)]
      simp [skipWs, Int.negSucc_eq]
  | vstr s =>
    show jsonParse (String.mk ('"' :: (escChars s.data ++ ['"']))) = some (.vstr s)
    unfold jsonParse
    show (match parseValue (skipWs ('"' :: (escChars s.data ++ ['"']))) with
      | some (v, rest) => if skipWs rest = [] then some v else none
      | none => none) = _
    have hws : isWs '"' = false := by decide
    simp only [skipWs, hws, Bool.false_eq_true, if_false]
    simp only [parseValue, reduceIte]
    have := parseStringBody_escChars s.data [] []
    simp only [List.reverse_nil, List.nil_append] at this
    rw [show ('"' : Char) :: ([] : List Char) = ['"'] from rfl] at this
    rw [this]
    simp [string_mk_data, skipWs]

/-! ## Association-list lemmas -/

/-- Reading back a key just written returns the written value. -/
lemma listGet_listSet_self (k : String) (v : α) (l : List (String × α)) :
    listGet k (listSet k v l) = some v := by
  induction l with
  | nil => simp [listGet, listSet]
  | cons p rest ih =>
    obtain ⟨k', v'⟩ := p
    by_cases h : k' = k
    · subst h; simp [listSet, listGet]
    · simp only [listSet, beq_iff_eq, if_neg h]
      simpa [listGet, List.find?_cons, h] using ih

/-- Writing one key leaves every other key's lookup unchanged. -/
lemma listGet_listSet_ne (k k' : String) (v : α) (l : List (String × α)) (h : k ≠ k') :
    listGet k (listSet k' v l) = listGet k l := by
  induction l with
  | nil => simp [listGet, listSet, List.find?_cons, Ne.symm h]
  | cons p rest ih =>
    obtain ⟨k'', v''⟩ := p
    by_cases h2 : k'' = k'
    · subst h2
      simp [listSet, listGet, List.find?_cons, Ne.symm h]
    · simp only [listSet, beq_iff_eq, if_neg h2]
      by_cases h3 : k'' = k
      · subst h3; simp [listGet, List.find?_cons]
      · simpa [listGet, List.find?_cons, h3] using ih

/-- Membership reading of the `listHas` test. -/
lemma listHas_iff (k : String) (l : List (String × α)) :
    listHas k l = true ↔ k ∈ l.map Prod.fst := by
  simp [listHas, List.any_eq_true, List.mem_map, beq_iff_eq]

/-- The `listHas` test is the `isSome` of the lookup. -/
lemma listHas_eq_isSome (k : String) (l : List (String × α)) :
    listHas k l = (listGet k l).isSome := by
  induction l with
  | nil => rfl
  | cons p rest ih =>
    obtain ⟨k', v'⟩ := p
    by_cases h : k' = k
    · simp [listHas, listGet, List.find?_cons, h]
    · have hb : (k' == k) = false := by simp [h]
      simpa [listHas, listGet, List.find?_cons, hb] using ih

/-- The success flag of `listDel` is exactly the membership test. -/
lemma listDel_fst (k : String) (l : List (String × α)) :
    (listDel k l).1 = listHas k l := by
  induction l with
  | nil => rfl
  | cons p rest ih =>
    obtain ⟨k', v'⟩ := p
    by_cases h : k' = k
    · simp [listDel, listHas, h]
    · have hb : (k' == k) = false := by simp [h]
      simpa [listDel, listHas, List.any_cons, hb, h] using ih

/-- After deleting a key from a list with no duplicate keys, the key is gone. -/
lemma listGet_listDel_self (k : String) (l : List (String × α))
    (h : (l.map Prod.fst).Nodup) : listGet k (listDel k l).2 = none := by
  induction l with
  | nil => rfl
  | cons p rest ih =>
    obtain ⟨k', v'⟩ := p
    simp only [List.map_cons, List.nodup_cons] at h
    by_cases he : k' = k
    · subst he
      simp only [listDel, beq_self_eq_true, if_pos rfl]
      cases hg : listGet k' rest with
      | none => exact hg
      | some w =>
        exfalso
        have : listHas k' rest = true := by rw [listHas_eq_isSome, hg]; rfl
        exact h.1 ((listHas_iff k' rest).1 this)
    · simp only [listDel, beq_iff_eq, if_neg he]
      simpa [listGet, List.find?_cons, he] using ih h.2

/-- Has-after-delete is false on duplicate-free key lists. -/
lemma listHas_listDel_self (k : String) (l : List (String × α))
    (h : (l.map Prod.fst).Nodup) : listHas k (listDel k l).2 = false := by
  rw [listHas_eq_isSome, listGet_listDel_self k l h]
  rfl

/-! ## Dual-store read lemmas -/

/-- A dual read never touches the file layer's state. -/
lemma dualGet_snd_fs (k : String) (s : RequestSettings) (st : DualState) :
    (DualStorage.get k s st).2.2 = st.2 := rfl

/-- A dual read whose result is not a cached-then-lost `null` leaves every
other read's result unchanged: promotion only installs the very value the
file layer already returns for that key. -/
lemma dualGet_stable (k k2 : String) (s : RequestSettings) (st : DualState)
    (h : (DualStorage.get k s st).1 ≠ some Value.vnull) :
    (DualStorage.get k2 s (DualStorage.get k s st).2).1 = (DualStorage.get k2 s st).1 := by
  rcases hc : CacheStorage.get k s st.1 with _ | v
  case some =>
    have hst : (DualStorage.get k s st).2 = st := by
      simp [DualStorage.get, hc]
    rw [hst]
  case none =>
    rcases hf : FileStorage.get k s st.2 with _ | w
    · have hst : (DualStorage.get k s st).2 = st := by
        simp [DualStorage.get, hc, hf]
      rw [hst]
    · have hret : (DualStorage.get k s st).1 = some w := by
        simp [DualStorage.get, hc, hf]
      have hw : w ≠ .vnull := by rintro rfl; exact h hret
      have hst : (DualStorage.get k s st).2 = ((CacheStorage.set k w s st.1).2, st.2) := by
        simp [DualStorage.get, hc, hf]
      rw [hst]
      by_cases hic : s.ignore_cache = true
      · have hcset : (CacheStorage.set k w s st.1).2 = st.1 := by
          simp [CacheStorage.set, hic]
        rw [hcset]
      · by_cases hdw : s.deny_write = true
        · have hcset : (CacheStorage.set k w s st.1).2 = st.1 := by
            simp [CacheStorage.set, hdw]
          rw [hcset]
        · have hic' : s.ignore_cache = false := by simpa using hic
          have hdw' : s.deny_write = false := by simpa using hdw
          have hdr : s.deny_read = false := by
            by_contra hdr'
            have hdr2 : s.deny_read = true := by simpa using hdr'
            have hnone : FileStorage.get k s st.2 = none := by
              simp [FileStorage.get, hdr2]
            rw [hnone] at hf
            cases hf
          have hcset : (CacheStorage.set k w s st.1).2 = listSet k w st.1 := by
            simp [CacheStorage.set, hic', hdw']
          rw [hcset]
          by_cases hkk : k2 = k
          · subst hkk
            have hcg : CacheStorage.get k2 s (listSet k2 w st.1) = some w := by
              simp [CacheStorage.get, hic', hdr, listGet_listSet_self]
            have lhs : (DualStorage.get k2 s (listSet k2 w st.1, st.2)).1 = some w := by
              cases w with
              | vnull => exact absurd rfl hw
              | vbool b => simp [DualStorage.get, hcg]
              | vnum n => simp [DualStorage.get, hcg]
              | vstr s2 => simp [DualStorage.get, hcg]
            rw [lhs, hret]
          · have hcg : CacheStorage.get k2 s (listSet k w st.1) = CacheStorage.get k2 s st.1 := by
              simp only [CacheStorage.get]
              rw [listGet_listSet_ne k2 k w st.1 hkk]
            simp only [DualStorage.get]
            rw [hcg]

/-! ## Claims -/

/-- C1 (counterexample).  The claim asserts the set/get round trip for every
backend, every value and both data types.  It fails on the File-System store
with a non-`"json"` data type and a non-string value: `set` writes the JS
string conversion of the value and `get` returns it as raw text, so storing
the number `42` reads back as the string `"42"`. -/
theorem C1_roundtrip_counterexample :
    FileStorage.get "k" { data_type := "txt" }
        (FileStorage.set "k" (.vnum 42) { data_type := "txt" } []).2 ≠ some (.vnum 42)
    ∧ FileStorage.get "k" { data_type := "txt" }
        (FileStorage.set "k" (.vnum 42) { data_type := "txt" } []).2 = some (.vstr "42") := by
  constructor
  · decide
  · decide

/-- C1 (amended).  The set/get round trip holds: on the In-Memory store for
every value and any settings that permit the operation; on the File-System
store for every value under `"json"`, and exactly for string values under a
non-`"json"` data type (the value is read back as its textual form); on the
Dual store for every non-`null` value under both data types (a cached `null`
is lost by the `cache ?? files` return, since `??` treats `null` as nullish). -/
theorem C1_roundtrip_amended :
    (∀ (k : String) (v : Value) (s : RequestSettings) (st : CacheState),
       s.ignore_cache = false → s.deny_write = false → s.deny_read = false →
       CacheStorage.get k s (CacheStorage.set k v s st).2 = some v)
    ∧ (∀ (k : String) (v : Value) (fs : FsState),
       FileStorage.get k {} (FileStorage.set k v {} fs).2 = some v)
    ∧ (∀ (k str : String) (fs : FsState),
       FileStorage.get k { data_type := "txt" }
         (FileStorage.set k (.vstr str) { data_type := "txt" } fs).2 = some (.vstr str))
    ∧ (∀ (k : String) (v : Value) (dst : DualState), v ≠ .vnull →
       (DualStorage.get k {} (DualStorage.set k v {} dst).2).1 = some v)
    ∧ (∀ (k : String) (v : Value) (dst : DualState), v ≠ .vnull →
       (DualStorage.get k { data_type := "txt" }
         (DualStorage.set k v { data_type := "txt" } dst).2).1 = some v) := by
  refine ⟨?_, ?_, ?_, ?_, ?_⟩
  · intro k v s st hic hdw hdr
    simp [CacheStorage.set, CacheStorage.get, hic, hdw, hdr, listGet_listSet_self]
  · intro k v fs
    simp [FileStorage.set, FileStorage.get, listGet_listSet_self, jsonParse_jsonStringify]
  · intro k str fs
    simp [FileStorage.set, FileStorage.get, listGet_listSet_self, jsToString]
  · intro k v dst hv
    have hset : (DualStorage.set k v {} dst).2
        = (listSet k v dst.1, (FileStorage.set k v {} dst.2).2) := by
      simp [DualStorage.set, CacheStorage.set]
    rw [hset]
    have hcg : CacheStorage.get k {} (listSet k v dst.1) = some v := by
      simp [CacheStorage.get, listGet_listSet_self]
    cases v with
    | vnull => exact absurd rfl hv
    | vbool b => simp [DualStorage.get, hcg]
    | vnum n => simp [DualStorage.get, hcg]
    | vstr s2 => simp [DualStorage.get, hcg]
  · intro k v dst hv
    have hset : (DualStorage.set k v { data_type := "txt" } dst).2
        = (listSet k v dst.1, (FileStorage.set k v { data_type := "txt" } dst.2).2) := by
      simp [DualStorage.set, CacheStorage.set]
    rw [hset]
    have hcg : CacheStorage.get k { data_type := "txt" } (listSet k v dst.1) = some v := by
      simp [CacheStorage.get, listGet_listSet_self]
    cases v with
    | vnull => exact absurd rfl hv
    | vbool b => simp [DualStorage.get, hcg]
    | vnum n => simp [DualStorage.get, hcg]
    | vstr s2 => simp [DualStorage.get, hcg]

/-- C1 (witness): the amended round trip evaluated at concrete inputs. -/
theorem C1_roundtrip_witness :
    CacheStorage.get "a" {} (CacheStorage.set "a" (.vnum 7) {} []).2 = some (.vnum 7)
    ∧ (DualStorage.get "a" {} (DualStorage.set "a" (.vbool false) {} ([], [])).2).1
        = some (.vbool false) :=
  ⟨C1_roundtrip_amended.1 "a" (.vnum 7) {} [] rfl rfl rfl,
   C1_roundtrip_amended.2.2.2.1 "a" (.vbool false) ([], []) (by decide)⟩

/-- C2.  For the Dual store with default settings, when a key is absent from
the memory layer and the file layer yields a value, `get` returns that value
and afterwards a direct read of the In-Memory store alone shows the promoted
value. -/
theorem C2_cache_promotion (k : String) (v : Value) (st : DualState)
    (hc : CacheStorage.get k {} st.1 = none)
    (hf : FileStorage.get k {} st.2 = some v) :
    (DualStorage.get k {} st).1 = some v
    ∧ CacheStorage.get k {} ((DualStorage.get k {} st).2).1 = some v := by
  have hret : (DualStorage.get k {} st).1 = some v := by
    simp [DualStorage.get, hc, hf]
  have hst : (DualStorage.get k {} st).2 = ((CacheStorage.set k v {} st.1).2, st.2) := by
    simp [DualStorage.get, hc, hf]
  refine ⟨hret, ?_⟩
  rw [hst]
  have hs : (CacheStorage.set k v {} st.1).2 = listSet k v st.1 := by
    simp [CacheStorage.set]
  simp [hs, CacheStorage.get, listGet_listSet_self]

/-- C2 (witness): promotion observed on a concrete state. -/
theorem C2_cache_promotion_witness :
    (DualStorage.get "k" {} ([], [("data/k.json", "1")])).1 = some (.vnum 1)
    ∧ CacheStorage.get "k" {}
        ((DualStorage.get "k" {} ([], [("data/k.json", "1")])).2).1 = some (.vnum 1) :=
  C2_cache_promotion "k" (.vnum 1) ([], [("data/k.json", "1")]) (by decide) (by decide)

/-- C3.  `DualStorage.set` attempts both layer writes (the resulting state
carries both updated layers), each layer's outcome is its set result OR'd
with the matching `ignore_*` flag, the overall result is the AND of the two
outcomes, and an ignored layer never causes an overall failure. -/
theorem C3_dual_set_combination (k : String) (v : Value) (s : RequestSettings)
    (st : DualState) :
    DualStorage.set k v s st
      = (((CacheStorage.set k v s st.1).1 || s.ignore_cache)
          && ((FileStorage.set k v s st.2).1 || s.ignore_files),
         ((CacheStorage.set k v s st.1).2, (FileStorage.set k v s st.2).2))
    ∧ (s.ignore_cache = true →
        (DualStorage.set k v s st).1 = ((FileStorage.set k v s st.2).1 || s.ignore_files))
    ∧ (s.ignore_files = true →
        (DualStorage.set k v s st).1 = ((CacheStorage.set k v s st.1).1 || s.ignore_cache)) := by
  refine ⟨rfl, ?_, ?_⟩
  · intro hic; simp [DualStorage.set, hic]
  · intro hif; simp [DualStorage.set, hif]

/-- C3 (witness): an ignored cache layer cannot fail the overall write. -/
theorem C3_dual_set_combination_witness :
    (DualStorage.set "a" (.vnum 1) { ignore_cache := true } (([], []) : DualState)).1
      = ((FileStorage.set "a" (.vnum 1) { ignore_cache := true } ([] : FsState)).1
          || ({ ignore_cache := true } : RequestSettings).ignore_files) :=
  (C3_dual_set_combination "a" (.vnum 1) { ignore_cache := true } ([], [])).2.1 rfl

/-- C4 (counterexample).  The claim asserts `del` on an absent key returns
`true`; on the In-Memory store it returns `Map.delete`'s report, which is
`false` when the key did not exist. -/
theorem C4_del_counterexample :
    (CacheStorage.del "k" ({} : RequestSettings) ([] : CacheState)).1 ≠ true
    ∧ (CacheStorage.del "k" ({} : RequestSettings) ([] : CacheState)).1 = false := by
  exact ⟨by decide, by decide⟩

/-- C4 (amended).  With default settings, `del` on an absent key returns
`false` for every backend (the In-Memory store reports whether removal
occurred, the File store reports whether `FS.rm` succeeded, the Dual store
ANDs the two), and `del` followed by `has` yields `false` on every backend. -/
theorem C4_del_amended (k : String) (st : CacheState) (fs : FsState) (dst : DualState) :
    (CacheStorage.has k {} st = false → (CacheStorage.del k {} st).1 = false)
    ∧ ((st.map Prod.fst).Nodup → CacheStorage.has k {} (CacheStorage.del k {} st).2 = false)
    ∧ (FileStorage.has k {} fs = false → (FileStorage.del k {} fs).1 = false)
    ∧ ((fs.map Prod.fst).Nodup → FileStorage.has k {} (FileStorage.del k {} fs).2 = false)
    ∧ (DualStorage.has k {} dst = false → (DualStorage.del k {} dst).1 = false)
    ∧ ((dst.1.map Prod.fst).Nodup → (dst.2.map Prod.fst).Nodup →
        DualStorage.has k {} (DualStorage.del k {} dst).2 = false) := by
  refine ⟨?_, ?_, ?_, ?_, ?_, ?_⟩
  · intro h
    have hh : listHas k st = false := by simpa [CacheStorage.has] using h
    simp [CacheStorage.del, listDel_fst, hh]
  · intro h
    simp [CacheStorage.del, CacheStorage.has, listHas_listDel_self k st h]
  · intro h
    have hh : listHas (intoFilePath k "json") fs = false := by
      rw [listHas_eq_isSome]
      simpa [FileStorage.has] using h
    simp [FileStorage.del, listDel_fst, hh]
  · intro h
    simp [FileStorage.del, FileStorage.has, listGet_listDel_self _ fs h]
  · intro h
    have h2 := h
    simp only [DualStorage.has, Bool.or_eq_false_iff] at h2
    have hh1 : listHas k dst.1 = false := by simpa [CacheStorage.has] using h2.1
    have hh2 : listHas (intoFilePath k "json") dst.2 = false := by
      rw [listHas_eq_isSome]
      simpa [FileStorage.has] using h2.2
    simp [DualStorage.del, CacheStorage.del, FileStorage.del, listDel_fst, hh1, hh2]
  · intro h1 h2
    simp [DualStorage.del, DualStorage.has, CacheStorage.del, CacheStorage.has,
      FileStorage.del, FileStorage.has, listHas_listDel_self _ _ h1,
      listGet_listDel_self _ _ h2]

/-- C4 (witness): delete of an absent key on a concrete store. -/
theorem C4_del_amended_witness :
    (CacheStorage.del "k" {} ([("a", Value.vnum 1)] : CacheState)).1 = false
    ∧ CacheStorage.has "k" {}
        (CacheStorage.del "k" {} ([("a", Value.vnum 1)] : CacheState)).2 = false := by
  have h := C4_del_amended "k" [("a", .vnum 1)] [] ([], [])
  exact ⟨h.1 (by decide), h.2.1 (by decide)⟩

/-- C5 (counterexample).  The claim asserts every read operation under
`deny_read` behaves as if the key were absent; but `CacheStorage.has` checks
only `ignore_cache`, so a present key still reports `true` under `deny_read`. -/
theorem C5_deny_read_counterexample :
    CacheStorage.has "k" { deny_read := true } [("k", Value.vnum 1)] = true
    ∧ ¬ CacheStorage.has "k" { deny_read := true } [("k", Value.vnum 1)] = false := by
  exact ⟨by decide, by decide⟩

/-- C5 (amended).  Under `deny_read`, `get` returns the absent marker and
`pairs` returns the empty list on every backend, and the File store's `has`
returns `false`; the Dual store's `get` also leaves its state untouched.
The exception is `has` on the cache layer: `CacheStorage.has` ignores
`deny_read` and reports raw map membership, and `DualStorage.has` inherits
this through its cache layer. -/
theorem C5_deny_read_amended (s : RequestSettings) (hdr : s.deny_read = true)
    (k dir : String) (st : CacheState) (fs : FsState) (dst : DualState) :
    CacheStorage.get k s st = none
    ∧ CacheStorage.pairs dir s st = []
    ∧ CacheStorage.has k s st = (if s.ignore_cache then false else listHas k st)
    ∧ FileStorage.has k s fs = false
    ∧ FileStorage.get k s fs = none
    ∧ FileStorage.pairs dir s fs = []
    ∧ DualStorage.get k s dst = (none, dst)
    ∧ DualStorage.pairs dir s dst = []
    ∧ DualStorage.has k s dst = CacheStorage.has k s dst.1 := by
  refine ⟨?_, ?_, rfl, ?_, ?_, ?_, ?_, ?_, ?_⟩
  · simp [CacheStorage.get, hdr]
  · simp [CacheStorage.pairs, hdr]
  · simp [FileStorage.has, hdr]
  · simp [FileStorage.get, hdr]
  · simp [FileStorage.pairs, hdr]
  · have hc : CacheStorage.get k s dst.1 = none := by simp [CacheStorage.get, hdr]
    have hf : FileStorage.get k s dst.2 = none := by simp [FileStorage.get, hdr]
    simp [DualStorage.get, hc, hf]
  · simp [DualStorage.pairs, CacheStorage.pairs, FileStorage.pairs, hdr]
  · simp [DualStorage.has, FileStorage.has, hdr]

/-- C5 (witness): the amended behavior at a concrete denied read. -/
theorem C5_deny_read_amended_witness :
    CacheStorage.get "k" { deny_read := true } [("k", Value.vnum 1)] = none
    ∧ FileStorage.has "k" { deny_read := true } [("data/k.json", "1")] = false := by
  have h := C5_deny_read_amended { deny_read := true } rfl "k" "d"
    [("k", .vnum 1)] [("data/k.json", "1")] ([], [])
  exact ⟨h.1, h.2.2.2.1⟩

/-- C6.  The claim says `modify` under `deny_write` fails and leaves the
value unchanged; the source omits the `settings` argument in `modify`'s
write-back call to `set`, so the write runs with default settings: on every
backend `modify` under `deny_write` on a present key returns `true` and
overwrites the stored value.  Evaluated here at the failing inputs. -/
theorem C6_modify_deny_write_behavior :
    SyncStorage.modify "k" (fun _ _ st => (.vnum 2, st)) { deny_write := true }
        [("k", Value.vnum 1)] = (true, [("k", Value.vnum 2)])
    ∧ AsyncStorage.modify filePrims "k" (fun _ _ fs => (.vnum 2, fs)) { deny_write := true }
        [("data/k.json", "1")] = (true, [("data/k.json", "2")])
    ∧ AsyncStorage.modify dualPrims "k" (fun _ _ st => (.vnum 2, st)) { deny_write := true }
        ([("k", Value.vnum 1)], []) = (true, ([("k", Value.vnum 2)], [("data/k.json", "2")])) := by
  refine ⟨by decide, by decide, by decide⟩

/-- C7 (counterexample).  The claim says `get_all` drops only absent keys;
but presence is tested with JS truthiness (`!!v`), so a present falsy value
(here the number `0`) is silently dropped as well. -/
theorem C7_get_all_counterexample :
    SyncStorage.get_all ["k"] {} [("k", Value.vnum 0)] = []
    ∧ CacheStorage.get "k" {} [("k", Value.vnum 0)] = some (Value.vnum 0) := by
  exact ⟨by decide, by decide⟩

/-- C7 (amended).  `get_all` keeps, in input-key order, the values whose
lookup is truthy; falsy present values (`false`, `0`, the empty string,
`null`) are dropped like absent keys.  Consequently, whenever every present
value among the requested keys is truthy, `get_all` returns exactly the
present values in the order of the input key list — for all three backends
(for the Dual store, lookups are taken at the initial state; its cache
promotion does not disturb later reads of truthy values). -/
theorem C7_get_all_amended :
    (∀ (keys : List String) (s : RequestSettings) (st : CacheState),
       (∀ k ∈ keys, ∀ v, CacheStorage.get k s st = some v → jsTruthy v = true) →
       SyncStorage.get_all keys s st = keys.filterMap (fun k => CacheStorage.get k s st))
    ∧ (∀ (keys : List String) (s : RequestSettings) (fs : FsState),
       (∀ k ∈ keys, ∀ v, FileStorage.get k s fs = some v → jsTruthy v = true) →
       AsyncStorage.get_all filePrims keys s fs
         = (keys.filterMap (fun k => FileStorage.get k s fs), fs))
    ∧ (∀ (keys : List String) (s : RequestSettings) (dst : DualState),
       (∀ k ∈ keys, ∀ v, (DualStorage.get k s dst).1 = some v → jsTruthy v = true) →
       (AsyncStorage.get_all dualPrims keys s dst).1
         = keys.filterMap (fun k => (DualStorage.get k s dst).1)) := by
  refine ⟨?_, ?_, ?_⟩
  · intro keys s st
    induction keys with
    | nil => intro _; rfl
    | cons k rest ih =>
      intro H
      have hd := H k (List.mem_cons_self k rest)
      have ht := ih (fun k2 hk2 v hv => H k2 (List.mem_cons_of_mem _ hk2) v hv)
      show keepTruthy (CacheStorage.get k s st :: rest.map (fun k2 => CacheStorage.get k2 s st))
        = List.filterMap _ (k :: rest)
      rcases hg : CacheStorage.get k s st with _ | v
      · simpa [keepTruthy, List.filterMap_cons, hg] using ht
      · have htr : jsTruthy v = true := hd v hg
        simpa [keepTruthy, List.filterMap_cons, hg, htr] using ht
  · intro keys s fs
    induction keys with
    | nil => intro _; rfl
    | cons k rest ih =>
      intro H
      have hd := H k (List.mem_cons_self k rest)
      have ht := ih (fun k2 hk2 v hv => H k2 (List.mem_cons_of_mem _ hk2) v hv)
      have key : AsyncStorage.get_all filePrims (k :: rest) s fs
          = (match FileStorage.get k s fs with
             | some v => if jsTruthy v then
                 v :: (AsyncStorage.get_all filePrims rest s fs).1
               else (AsyncStorage.get_all filePrims rest s fs).1
             | none => (AsyncStorage.get_all filePrims rest s fs).1,
             (AsyncStorage.get_all filePrims rest s fs).2) := rfl
      rw [key, ht]
      rcases hg : FileStorage.get k s fs with _ | v
      · simp [hg, List.filterMap_cons]
      · have htr : jsTruthy v = true := hd v hg
        simp [hg, htr, List.filterMap_cons]
  · intro keys s dst
    induction keys generalizing dst with
    | nil => intro _; rfl
    | cons k rest ih =>
      intro H
      have hd := H k (List.mem_cons_self k rest)
      have hknn : (DualStorage.get k s dst).1 ≠ some Value.vnull := by
        intro he
        have := hd Value.vnull he
        simp [jsTruthy] at this
      have hstab : ∀ k2, (DualStorage.get k2 s (DualStorage.get k s dst).2).1
          = (DualStorage.get k2 s dst).1 :=
        fun k2 => dualGet_stable k k2 s dst hknn
      have ht := ih (DualStorage.get k s dst).2
        (fun k2 hk2 v hv => H k2 (List.mem_cons_of_mem _ hk2) v (by rw [hstab k2] at hv; exact hv))
      have hcong : rest.filterMap (fun k2 => (DualStorage.get k2 s (DualStorage.get k s dst).2).1)
          = rest.filterMap (fun k2 => (DualStorage.get k2 s dst).1) :=
        List.filterMap_congr (fun k2 _ => hstab k2)
      rw [hcong] at ht
      have key : AsyncStorage.get_all dualPrims (k :: rest) s dst
          = (match (DualStorage.get k s dst).1 with
             | some v => if jsTruthy v then
                 v :: (AsyncStorage.get_all dualPrims rest s (DualStorage.get k s dst).2).1
               else (AsyncStorage.get_all dualPrims rest s (DualStorage.get k s dst).2).1
             | none => (AsyncStorage.get_all dualPrims rest s (DualStorage.get k s dst).2).1,
             (AsyncStorage.get_all dualPrims rest s (DualStorage.get k s dst).2).2) := rfl
      rw [key]
      rcases hg : (DualStorage.get k s dst).1 with _ | v
      · simp only [hg, List.filterMap_cons]
        exact ht
      · have htr : jsTruthy v = true := hd v hg
        simp only [hg, htr, List.filterMap_cons, if_true]
        rw [ht]

/-- C7 (witness): the amended characterization at concrete truthy stores. -/
theorem C7_get_all_amended_witness :
    SyncStorage.get_all ["a", "b"] {} [("a", Value.vnum 1)]
      = ["a", "b"].filterMap (fun k => CacheStorage.get k {} [("a", Value.vnum 1)]) :=
  C7_get_all_amended.1 ["a", "b"] {} [("a", .vnum 1)] (by
    intro k hk v hv
    fin_cases hk
    · have he : CacheStorage.get "a" ({} : RequestSettings) [("a", Value.vnum 1)]
          = some (Value.vnum 1) := by decide
      rw [he] at hv
      injection hv with h2
      subst h2
      decide
    · have he : CacheStorage.get "b" ({} : RequestSettings) [("a", Value.vnum 1)]
          = none := by decide
      rw [he] at hv
      cases hv)

/-- C8 (counterexample).  The claim says every key returned by the File
store's `pairs(dir)` starts with `dir`; in fact the produced keys are the
resolved paths, which start with the data root (`"data/" ++ dir ++ "/"`),
not with `dir` — and the value loaded by re-applying `get` to such a key
resolves to a doubly-rooted path, here absent. -/
theorem C8_pairs_counterexample :
    FileStorage.pairs "users" {} [("data/users/alice.json", "1")]
      = [("data/users/alice.json", none)]
    ∧ strStarts "data/users/alice.json" "users" = false := by
  exact ⟨by decide, by decide⟩

/-- C8 (amended).  When reads are permitted, the File store's `pairs(dir)`
returns exactly the entries for the plain files immediately under the
resolved directory (subdirectories skipped, not recursed); every returned
key starts with the resolved directory path `intoDirPath dir` (not with
`dir` itself), and every returned value is the result of `get` applied to
that key. -/
theorem C8_pairs_amended (dir : String) (s : RequestSettings) (fs : FsState)
    (hif : s.ignore_files = false) (hdr : s.deny_read = false) :
    FileStorage.pairs dir s fs
      = (fs.filter (fun pr => isChildFile (intoDirPath dir) pr.1)).map
          (fun pr => (pr.1, FileStorage.get pr.1 s fs))
    ∧ (∀ p ∈ FileStorage.pairs dir s fs,
        strStarts p.1 (intoDirPath dir) = true ∧ p.2 = FileStorage.get p.1 s fs) := by
  constructor
  · simp [FileStorage.pairs, hif, hdr]
  · intro p hp
    simp only [FileStorage.pairs, hif, hdr, Bool.or_self, Bool.false_eq_true, if_false,
      List.mem_map, List.mem_filter] at hp
    obtain ⟨pr, ⟨_, hchild⟩, rfl⟩ := hp
    refine ⟨?_, rfl⟩
    simp only [isChildFile, Bool.and_eq_true] at hchild
    exact hchild.1.1

/-- C8 (witness): the amended characterization at a concrete file system. -/
theorem C8_pairs_amended_witness :
    FileStorage.pairs "users" {} [("data/users/alice.json", "1")]
      = ([("data/users/alice.json", "1")].filter
            (fun pr => isChildFile (intoDirPath "users") pr.1)).map
          (fun pr => (pr.1, FileStorage.get pr.1 {} [("data/users/alice.json", "1")])) :=
  (C8_pairs_amended "users" {} [("data/users/alice.json", "1")] rfl rfl).1

/-- C9 (counterexample).  The claim says Dual `pairs` deduplicates by key;
on a state where the same key appears in both layers (even with equal
values), the result contains that key twice: the JS `Set` compares the pair
arrays by reference and every pair array is freshly created. -/
theorem C9_pairs_counterexample :
    (DualStorage.pairs "d" {}
        ([("data/d/a.json", Value.vnum 1)],
         [("data/d/a.json", "1"), ("data/data/d/a.json", "1")])).map Prod.fst
      = ["data/d/a.json", "data/d/a.json"]
    ∧ ¬ ((DualStorage.pairs "d" {}
        ([("data/d/a.json", Value.vnum 1)],
         [("data/d/a.json", "1"), ("data/data/d/a.json", "1")])).map Prod.fst).Nodup := by
  exact ⟨by decide, by decide⟩

/-- C9 (amended).  Dual `pairs` is the concatenation of the memory layer's
matching entries with the file layer's entries, with no deduplication of any
kind: each key occurs exactly as many times as in the two layers' outputs
combined. -/
theorem C9_pairs_amended (dir : String) (s : RequestSettings) (st : DualState) :
    DualStorage.pairs dir s st
      = (CacheStorage.pairs dir s st.1).map (fun p => (p.1, some p.2))
          ++ FileStorage.pairs dir s st.2
    ∧ ∀ k : String,
        ((DualStorage.pairs dir s st).map Prod.fst).count k
          = ((CacheStorage.pairs dir s st.1).map Prod.fst).count k
            + ((FileStorage.pairs dir s st.2).map Prod.fst).count k := by
  refine ⟨rfl, ?_⟩
  intro k
  have hm : ((CacheStorage.pairs dir s st.1).map (fun p => (p.1, some p.2))).map Prod.fst
      = (CacheStorage.pairs dir s st.1).map Prod.fst := by
    rw [List.map_map]
    exact List.map_congr_left (fun a _ => rfl)
  show (((CacheStorage.pairs dir s st.1).map (fun p => (p.1, some p.2))
      ++ FileStorage.pairs dir s st.2).map Prod.fst).count k = _
  rw [List.map_append, List.count_append, hm]

/-- C10.  Every batch operation applied to the empty key list returns its
vacuous result on every backend and for every settings (including denied
reads or writes) and every callback: the `_all` forms return `true` (with
the state unchanged), the `_any` forms return `false`. -/
theorem C10_empty_batches (s : RequestSettings) (st : CacheState) (fs : FsState)
    (dst : DualState) (p : Predicate CacheState) (m : Modifier CacheState)
    (pf : Predicate FsState) (mf : Modifier FsState)
    (pd : Predicate DualState) (md : Modifier DualState) :
    SyncStorage.has_all [] s st = true
    ∧ SyncStorage.has_any [] s st = false
    ∧ SyncStorage.set_all [] s st = (true, st)
    ∧ SyncStorage.del_all [] s st = (true, st)
    ∧ SyncStorage.assert_all [] p s st = (true, st)
    ∧ SyncStorage.assert_any [] p s st = (false, st)
    ∧ SyncStorage.modify_all [] m s st = (true, st)
    ∧ AsyncStorage.has_all filePrims [] s fs = true
    ∧ AsyncStorage.has_any filePrims [] s fs = false
    ∧ AsyncStorage.set_all filePrims [] s fs = (true, fs)
    ∧ AsyncStorage.del_all filePrims [] s fs = (true, fs)
    ∧ AsyncStorage.assert_all filePrims [] pf s fs = (true, fs)
    ∧ AsyncStorage.assert_any filePrims [] pf s fs = (false, fs)
    ∧ AsyncStorage.modify_all filePrims [] mf s fs = (true, fs)
    ∧ AsyncStorage.has_all dualPrims [] s dst = true
    ∧ AsyncStorage.has_any dualPrims [] s dst = false
    ∧ AsyncStorage.set_all dualPrims [] s dst = (true, dst)
    ∧ AsyncStorage.del_all dualPrims [] s dst = (true, dst)
    ∧ AsyncStorage.assert_all dualPrims [] pd s dst = (true, dst)
    ∧ AsyncStorage.assert_any dualPrims [] pd s dst = (false, dst)
    ∧ AsyncStorage.modify_all dualPrims [] md s dst = (true, dst) := by
  refine ⟨rfl, rfl, rfl, rfl, rfl, rfl, rfl, rfl, rfl, rfl, rfl, rfl, rfl, rfl, rfl,
    rfl, rfl, rfl, rfl, rfl, rfl⟩
